import Mathlib

set_option maxHeartbeats 1600000
set_option maxRecDepth 4000

/-
  Verification development for scripts/python/etl_processor.py
  (chunked scan -> transform -> hash -> load pipeline).

  The Python program is shallowly embedded: polars DataFrames become lists of
  records, per-column casts become per-field total functions on an untyped
  value domain, hashlib.sha256 is embedded as a full SHA-256 over Nat bytes
  (validated below against the FIPS 180-4 test vectors), and the run_etl batch
  loop becomes a well-founded recursion over the source offset.
-/

/-- Python naive datetime value as carried through the pipeline (polars
Datetime values come back as datetime.datetime in to_dicts). -/
structure PyDateTime where
  year : Nat
  month : Nat
  day : Nat
  hour : Nat
  minute : Nat
  second : Nat
  microsecond : Nat
  deriving DecidableEq

/-- Zero-pad the decimal rendering of n to the given width, as Python's
%0*d formatting does inside datetime.isoformat. -/
def padNum (width n : Nat) : String :=
  let s := toString n
  if s.length < width then String.mk (List.replicate (width - s.length) '0') ++ s else s

/-- Python datetime textual form with a chosen date/time separator:
isoformat() uses "T", str() uses " ".  Microseconds are printed only
when nonzero, as in CPython. -/
def isoformatSep (sep : String) (d : PyDateTime) : String :=
  padNum 4 d.year ++ "-" ++ padNum 2 d.month ++ "-" ++ padNum 2 d.day ++ sep ++
  padNum 2 d.hour ++ ":" ++ padNum 2 d.minute ++ ":" ++ padNum 2 d.second ++
  (if d.microsecond = 0 then "" else "." ++ padNum 6 d.microsecond)

/-- Python datetime.isoformat(). -/
def PyDateTime.isoformat (d : PyDateTime) : String := isoformatSep "T" d

/-- Untyped cell value of one DataFrame column: the Python values that flow
through the pipeline are None, str, int, decimal.Decimal (scale 2, stored
here as the unscaled integer, i.e. the amount times 100), and datetime. -/
inductive Value where
  | vnull : Value
  | vstr : String → Value
  | vint : Int → Value
  | vdec : Int → Value
  | vdt : PyDateTime → Value
  deriving DecidableEq

/-- Whether a cell is Python None (a polars null). -/
def Value.isNull : Value → Bool
  | .vnull => true
  | _ => false

/-- Python str() of a scale-2 decimal.Decimal: sign, integer part, point,
exactly two fractional digits. -/
def decimalStr (u : Int) : String :=
  let a := u.natAbs
  (if u < 0 then "-" else "") ++ toString (a / 100) ++ "." ++ padNum 2 (a % 100)

/-- Python str() on the value domain. -/
def pyStr : Value → String
  | .vnull => "None"
  | .vstr s => s
  | .vint n => toString n
  | .vdec u => decimalStr u
  | .vdt d => isoformatSep " " d

/-- Python str.strip() whitespace test (the ASCII whitespace characters
Python strips; the values flowing through the pipeline are ASCII). -/
def isPyWhitespace (c : Char) : Bool :=
  c = ' ' || c = '\t' || c = '\n' || c = '\r' || c = '\x0b' || c = '\x0c'

/-- Python str.strip(): remove leading and trailing whitespace. -/
def pyStrip (s : String) : String :=
  String.mk (((s.data.dropWhile isPyWhitespace).reverse.dropWhile isPyWhitespace).reverse)

/-- Embeds normalize_value: None becomes "", a datetime becomes its
isoformat, anything else becomes str(value).strip(). -/
def normalize_value (value : Value) : String :=
  match value with
  | .vnull => ""
  | .vdt d => d.isoformat
  | v => pyStrip (pyStr v)

/-- Right rotation of a 32-bit word held in a Nat. -/
def rotr32 (n x : Nat) : Nat := ((x >>> n) ||| (x <<< (32 - n))) % 4294967296

/-- SHA-256 Ch function; the 32-bit complement is xor with 2^32 - 1. -/
def shaCh (x y z : Nat) : Nat := (x &&& y) ^^^ ((x ^^^ 4294967295) &&& z)

/-- SHA-256 Maj function. -/
def shaMaj (x y z : Nat) : Nat := (x &&& y) ^^^ (x &&& z) ^^^ (y &&& z)

/-- SHA-256 big Sigma0. -/
def shaBigSigma0 (x : Nat) : Nat := rotr32 2 x ^^^ rotr32 13 x ^^^ rotr32 22 x

/-- SHA-256 big Sigma1. -/
def shaBigSigma1 (x : Nat) : Nat := rotr32 6 x ^^^ rotr32 11 x ^^^ rotr32 25 x

/-- SHA-256 small sigma0. -/
def shaSmallSigma0 (x : Nat) : Nat := rotr32 7 x ^^^ rotr32 18 x ^^^ (x >>> 3)

/-- SHA-256 small sigma1. -/
def shaSmallSigma1 (x : Nat) : Nat := rotr32 17 x ^^^ rotr32 19 x ^^^ (x >>> 10)

/-- The 64 SHA-256 round constants. -/
def shaK : List Nat :=
  [1116352408, 1899447441, 3049323471, 3921009573, 961987163, 1508970993,
   2453635748, 2870763221, 3624381080, 310598401, 607225278, 1426881987,
   1925078388, 2162078206, 2614888103, 3248222580, 3835390401, 4022224774,
   264347078, 604807628, 770255983, 1249150122, 1555081692, 1996064986,
   2554220882, 2821834349, 2952996808, 3210313671, 3336571891, 3584528711,
   113926993, 338241895, 666307205, 773529912, 1294757372, 1396182291,
   1695183700, 1986661051, 2177026350, 2456956037, 2730485921, 2820302411,
   3259730800, 3345764771, 3516065817, 3600352804, 4094571909, 275423344,
   430227734, 506948616, 659060556, 883997877, 958139571, 1322822218,
   1537002063, 1747873779, 1955562222, 2024104815, 2227730452, 2361852424,
   2428436474, 2756734187, 3204031479, 3329325298]

/-- The eight SHA-256 working variables a..h. -/
structure ShaState where
  sa : Nat
  sb : Nat
  sc : Nat
  sd : Nat
  se : Nat
  sf : Nat
  sg : Nat
  sh : Nat
  deriving DecidableEq

/-- SHA-256 initial hash value. -/
def shaInit : ShaState :=
  ⟨1779033703, 3144134277, 1013904242, 2773480762,
   1359893119, 2600822924, 528734635, 1541459225⟩

/-- One SHA-256 compression round, for a pair of round constant and
schedule word. -/
def shaRound (st : ShaState) (kw : Nat × Nat) : ShaState :=
  let t1 := (st.sh + shaBigSigma1 st.se + shaCh st.se st.sf st.sg + kw.1 + kw.2) % 4294967296
  let t2 := (shaBigSigma0 st.sa + shaMaj st.sa st.sb st.sc) % 4294967296
  ⟨(t1 + t2) % 4294967296, st.sa, st.sb, st.sc, (st.sd + t1) % 4294967296, st.se, st.sf, st.sg⟩

/-- One message-schedule extension step, on the reversed schedule built so
far: w[i] from w[i-2], w[i-7], w[i-15], w[i-16]. -/
def scheduleStep (r : List Nat) : List Nat :=
  ((shaSmallSigma1 (r.getD 1 0) + r.getD 6 0 + shaSmallSigma0 (r.getD 14 0) + r.getD 15 0)
    % 4294967296) :: r

/-- Extend the 16 block words to the 64 schedule words. -/
def messageSchedule (ws : List Nat) : List Nat := (scheduleStep^[48] ws.reverse).reverse

/-- The 16 big-endian 32-bit words of a 64-byte block. -/
def wordsOfBlock (blk : List Nat) : List Nat :=
  (List.range 16).map (fun i =>
    ((blk.getD (4 * i) 0) <<< 24) ||| ((blk.getD (4 * i + 1) 0) <<< 16) |||
    ((blk.getD (4 * i + 2) 0) <<< 8) ||| blk.getD (4 * i + 3) 0)

/-- SHA-256 compression of one 64-byte block into the running state. -/
def shaCompress (st : ShaState) (blk : List Nat) : ShaState :=
  let ws := messageSchedule (wordsOfBlock blk)
  let t := (shaK.zip ws).foldl shaRound st
  ⟨(st.sa + t.sa) % 4294967296, (st.sb + t.sb) % 4294967296, (st.sc + t.sc) % 4294967296,
   (st.sd + t.sd) % 4294967296, (st.se + t.se) % 4294967296, (st.sf + t.sf) % 4294967296,
   (st.sg + t.sg) % 4294967296, (st.sh + t.sh) % 4294967296⟩

/-- FIPS 180-4 padding: 0x80, zeros to 56 mod 64, then the 64-bit
big-endian bit length. -/
def padMessage (msg : List Nat) : List Nat :=
  let bitLen := msg.length * 8
  let zeros := (119 - msg.length % 64) % 64
  msg ++ 128 :: List.replicate zeros 0 ++
    (List.range 8).map (fun i => (bitLen >>> (56 - 8 * i)) % 256)

/-- Split a byte list whose length is a multiple of 64 into its 64-byte
blocks. -/
def shaBlocks (bytes : List Nat) : List (List Nat) :=
  (List.range (bytes.length / 64)).map (fun i => (bytes.drop (64 * i)).take 64)

/-- UTF-8 encoding of one character, as byte values. -/
def utf8Char (c : Char) : List Nat :=
  let n := c.toNat
  if n < 128 then [n]
  else if n < 2048 then [192 ||| (n >>> 6), 128 ||| (n &&& 63)]
  else if n < 65536 then
    [224 ||| (n >>> 12), 128 ||| ((n >>> 6) &&& 63), 128 ||| (n &&& 63)]
  else
    [240 ||| (n >>> 18), 128 ||| ((n >>> 12) &&& 63), 128 ||| ((n >>> 6) &&& 63), 128 ||| (n &&& 63)]

/-- UTF-8 encoding of a string, as Python's str.encode("utf-8"). -/
def utf8Bytes (s : String) : List Nat := (s.data.map utf8Char).flatten

/-- Lowercase hexadecimal digit for a nibble. -/
def hexDigitChar (d : Nat) : Char := if d < 10 then Char.ofNat (48 + d) else Char.ofNat (87 + d)

/-- The eight lowercase hex characters of one 32-bit word, high nibble
first. -/
def wordHexChars (x : Nat) : List Char :=
  (List.range 8).map (fun i => hexDigitChar ((x >>> (28 - 4 * i)) % 16))

/-- Lowercase hex rendering of a final SHA-256 state, as hexdigest(). -/
def shaStateHex (st : ShaState) : String :=
  String.mk (wordHexChars st.sa ++ wordHexChars st.sb ++ wordHexChars st.sc ++ wordHexChars st.sd ++
    wordHexChars st.se ++ wordHexChars st.sf ++ wordHexChars st.sg ++ wordHexChars st.sh)

/-- hashlib.sha256(s.encode("utf-8")).hexdigest(). -/
def sha256hex (s : String) : String :=
  shaStateHex ((shaBlocks (padMessage (utf8Bytes s))).foldl shaCompress shaInit)

/-- Embeds sha256_from_values: join the canonical forms with "|" and hash
the UTF-8 bytes of the result. -/
def sha256_from_values (values : List Value) : String :=
  sha256hex (String.intercalate "|" (values.map normalize_value))

/-- Lowercase hexadecimal alphabet membership. -/
def isLowerHexDigit (c : Char) : Bool := ('0' ≤ c && c ≤ '9') || ('a' ≤ c && c ≤ 'f')

/-- Embeds CRITICAL_COLUMNS: the ten mandatory columns whose null excludes a
record. -/
def CRITICAL_COLUMNS : List String :=
  ["CodFondo", "Identificacion", "CodDireccion", "Valor", "Unidades",
   "ObjetivoInversion", "Asesor", "Oficina", "Bloqueo", "DiasPermanencia"]

/-- Embeds DATE_COLUMNS. -/
def DATE_COLUMNS : List String :=
  ["FechaConstitucion", "FechaVencimiento", "FechaVtoTeorica", "FechaUltimaCancelacion"]

/-- Embeds SOURCE_COLUMNS: the 22 source fields, in order. -/
def SOURCE_COLUMNS : List String :=
  ["CodFondo", "CodClase", "NumeroCuentaInversion", "TipoIdentificacion", "Identificacion",
   "CodDireccion", "Valor", "Unidades", "FechaConstitucion", "FechaVencimiento",
   "ObjetivoInversion", "Asesor", "Referido", "CanalApertura", "Oficina", "OficinaApertura",
   "OficinaActual", "Bloqueo", "IdCausalBloqueo", "DiasPermanencia", "FechaVtoTeorica",
   "FechaUltimaCancelacion"]

/-- Embeds COPY_COLUMNS: the 27 staging columns, in COPY order. -/
def COPY_COLUMNS : List String :=
  ["process_id", "source_hash", "source_system", "transaction_id", "payload_hash",
   "cod_fondo", "cod_clase", "numero_cuenta_inversion", "tipo_identificacion", "identificacion",
   "cod_direccion", "valor", "unidades", "fecha_constitucion", "fecha_vencimiento",
   "objetivo_inversion", "asesor", "referido", "canal_apertura", "oficina", "oficina_apertura",
   "oficina_actual", "bloqueo", "id_causal_bloqueo", "dias_permanencia", "fecha_vto_teorica",
   "fecha_ultima_cancelacion"]

/-- One source row after select(SOURCE_COLUMNS): the 22 named fields, each an
untyped cell. -/
structure Record where
  CodFondo : Value
  CodClase : Value
  NumeroCuentaInversion : Value
  TipoIdentificacion : Value
  Identificacion : Value
  CodDireccion : Value
  Valor : Value
  Unidades : Value
  FechaConstitucion : Value
  FechaVencimiento : Value
  ObjetivoInversion : Value
  Asesor : Value
  Referido : Value
  CanalApertura : Value
  Oficina : Value
  OficinaApertura : Value
  OficinaActual : Value
  Bloqueo : Value
  IdCausalBloqueo : Value
  DiasPermanencia : Value
  FechaVtoTeorica : Value
  FechaUltimaCancelacion : Value
  deriving DecidableEq

/-- The record's cells in SOURCE_COLUMNS order, as record[col] for col in
SOURCE_COLUMNS. -/
def Record.sourceValues (r : Record) : List Value :=
  [r.CodFondo, r.CodClase, r.NumeroCuentaInversion, r.TipoIdentificacion, r.Identificacion,
   r.CodDireccion, r.Valor, r.Unidades, r.FechaConstitucion, r.FechaVencimiento,
   r.ObjetivoInversion, r.Asesor, r.Referido, r.CanalApertura, r.Oficina, r.OficinaApertura,
   r.OficinaActual, r.Bloqueo, r.IdCausalBloqueo, r.DiasPermanencia, r.FechaVtoTeorica,
   r.FechaUltimaCancelacion]

/-- Whether any of the ten CRITICAL_COLUMNS cells of the record is null, the
row predicate of drop_nulls(CRITICAL_COLUMNS). -/
def hasCriticalNull (r : Record) : Bool :=
  r.CodFondo.isNull || r.Identificacion.isNull || r.CodDireccion.isNull || r.Valor.isNull ||
  r.Unidades.isNull || r.ObjetivoInversion.isNull || r.Asesor.isNull || r.Oficina.isNull ||
  r.Bloqueo.isNull || r.DiasPermanencia.isNull

/-- Best-effort cast to a bounded integer type (polars cast with strict=False:
a cell that cannot be represented becomes null, never an error).  Strings are
parsed as integer literals; decimals truncate toward zero; out-of-range and
non-numeric cells become null. -/
def castIntBounded (lo hi : Int) : Value → Value
  | .vnull => .vnull
  | .vint n => if lo ≤ n ∧ n ≤ hi then .vint n else .vnull
  | .vstr s =>
    match s.toInt? with
    | some n => if lo ≤ n ∧ n ≤ hi then .vint n else .vnull
    | none => .vnull
  | .vdec u =>
    let q := Int.tdiv u 100
    if lo ≤ q ∧ q ≤ hi then .vint q else .vnull
  | .vdt _ => .vnull

/-- polars cast(pl.Int32, strict=False). -/
def castInt32 : Value → Value := castIntBounded (-2147483648) 2147483647

/-- polars cast(pl.Int64, strict=False). -/
def castInt64 : Value → Value := castIntBounded (-9223372036854775808) 9223372036854775807

/-- Digit run parsed as a natural number; none when empty or when any
character is not a digit. -/
def digitsToNat? (cs : List Char) : Option Nat :=
  if cs.isEmpty then none
  else
    cs.foldl
      (fun acc c =>
        match acc with
        | none => none
        | some a => if c.isDigit then some (a * 10 + (c.toNat - 48)) else none)
      (some 0)

/-- Decimal literal parsed to scale 2 (unscaled value): optional sign,
integer digits, optional point and fraction digits (truncated to two). -/
def parseDecimal2 (s : String) : Option Int :=
  let neg := s.startsWith "-"
  let body := if neg then s.drop 1 else s
  match body.splitOn "." with
  | [ip] => (digitsToNat? ip.data).map (fun a => (if neg then -(a : Int) else (a : Int)) * 100)
  | [ip, fp] =>
    match digitsToNat? ip.data, digitsToNat? (fp.data.take 2 ++ List.replicate (2 - fp.length) '0') with
    | some a, some f =>
      some ((if neg then (-1 : Int) else 1) * ((a : Int) * 100 + (f : Int)))
    | _, _ => none
  | _ => none

/-- polars cast(pl.Decimal(18, 2), strict=False): best-effort conversion to a
scale-2 decimal of at most 18 digits, null on failure. -/
def castDecimal : Value → Value
  | .vnull => .vnull
  | .vdec u => if u.natAbs < 1000000000000000000 then .vdec u else .vnull
  | .vint n =>
    if (n * 100).natAbs < 1000000000000000000 then .vdec (n * 100) else .vnull
  | .vstr s =>
    match parseDecimal2 s with
    | some u => if u.natAbs < 1000000000000000000 then .vdec u else .vnull
    | none => .vnull
  | .vdt _ => .vnull

/-- Permissive datetime parse (str.strptime with strict=False, exact=False):
accepts a YYYY-MM-DD date, optionally followed by a space or T and an
HH:MM:SS time; anything else fails to none. -/
def parseDatetimeChars : List Char → Option PyDateTime
  | y1 :: y2 :: y3 :: y4 :: '-' :: m1 :: m2 :: '-' :: d1 :: d2 :: rest =>
    if ([y1, y2, y3, y4, m1, m2, d1, d2].all Char.isDigit) then
      let year := (((y1.toNat - 48) * 10 + (y2.toNat - 48)) * 10 + (y3.toNat - 48)) * 10 + (y4.toNat - 48)
      let month := (m1.toNat - 48) * 10 + (m2.toNat - 48)
      let day := (d1.toNat - 48) * 10 + (d2.toNat - 48)
      if 1 ≤ month ∧ month ≤ 12 ∧ 1 ≤ day ∧ day ≤ 31 then
        match rest with
        | sep :: h1 :: h2 :: ':' :: n1 :: n2 :: ':' :: s1 :: s2 :: _ =>
          if (sep = ' ' ∨ sep = 'T') ∧ ([h1, h2, n1, n2, s1, s2].all Char.isDigit) then
            let hour := (h1.toNat - 48) * 10 + (h2.toNat - 48)
            let minute := (n1.toNat - 48) * 10 + (n2.toNat - 48)
            let second := (s1.toNat - 48) * 10 + (s2.toNat - 48)
            if hour < 24 ∧ minute < 60 ∧ second < 60 then
              some ⟨year, month, day, hour, minute, second, 0⟩
            else some ⟨year, month, day, 0, 0, 0, 0⟩
          else some ⟨year, month, day, 0, 0, 0, 0⟩
        | _ => some ⟨year, month, day, 0, 0, 0, 0⟩
      else none
    else none
  | _ => none

/-- The per-cell effect of the date-column rewrite: null stays null, an
existing datetime survives the round trip through its string form, and any
other cell is rendered with cast(pl.Utf8) and re-parsed, becoming null when
unparsable. -/
def castDate : Value → Value
  | .vnull => .vnull
  | .vdt d => .vdt d
  | v =>
    match parseDatetimeChars (pyStr v).data with
    | some d => .vdt d
    | none => .vnull

/-- The with_columns block of transform_chunk: the 13 typed-column casts,
applied cell-wise to one record. -/
def castTyped (r : Record) : Record :=
  { r with
    CodFondo := castInt32 r.CodFondo
    Identificacion := castInt32 r.Identificacion
    CodDireccion := castInt32 r.CodDireccion
    Valor := castDecimal r.Valor
    Unidades := castInt64 r.Unidades
    ObjetivoInversion := castInt64 r.ObjetivoInversion
    Asesor := castInt32 r.Asesor
    Oficina := castInt32 r.Oficina
    Bloqueo := castInt32 r.Bloqueo
    DiasPermanencia := castInt64 r.DiasPermanencia
    OficinaApertura := castInt32 r.OficinaApertura
    OficinaActual := castInt32 r.OficinaActual
    IdCausalBloqueo := castInt32 r.IdCausalBloqueo }

/-- The date-column loop of transform_chunk, applied cell-wise to one
record over the four DATE_COLUMNS. -/
def castDates (r : Record) : Record :=
  { r with
    FechaConstitucion := castDate r.FechaConstitucion
    FechaVencimiento := castDate r.FechaVencimiento
    FechaVtoTeorica := castDate r.FechaVtoTeorica
    FechaUltimaCancelacion := castDate r.FechaUltimaCancelacion }

/-- Embeds transform_chunk: select(SOURCE_COLUMNS) (the Record type already
carries exactly those columns), drop_nulls(CRITICAL_COLUMNS), the typed
casts, drop_nulls(CRITICAL_COLUMNS) again, then the date-column rewrites. -/
def transform_chunk (df : List Record) : List Record :=
  (((df.filter (fun r => !(hasCriticalNull r))).map castTyped).filter
      (fun r => !(hasCriticalNull r))).map castDates

/-- The business_key list built per record in build_copy_rows. -/
def business_key (record : Record) (source_system : String) : List Value :=
  [record.CodFondo, record.NumeroCuentaInversion, record.Identificacion,
   record.CodDireccion, record.FechaConstitucion, Value.vstr source_system]

/-- The payload_values list built per record in build_copy_rows:
record[col] for col in SOURCE_COLUMNS, plus the source_system tag. -/
def payload_values (record : Record) (source_system : String) : List Value :=
  record.sourceValues ++ [Value.vstr source_system]

/-- Embeds build_copy_rows: one 27-cell row per record — process_id,
source_hash, source_system, the business-key digest, the payload digest,
then the 22 source cells in order. -/
def build_copy_rows (df : List Record) (process_id source_hash source_system : String) :
    List (List Value) :=
  df.map (fun record =>
    [Value.vstr process_id, Value.vstr source_hash, Value.vstr source_system,
     Value.vstr (sha256_from_values (business_key record source_system)),
     Value.vstr (sha256_from_values (payload_values record source_system))] ++
    record.sourceValues)

/-- Python str(value) as csv.writer renders a cell: None becomes the empty
field, everything else its str() form. -/
def csvFieldStr (v : Value) : String :=
  match v with
  | .vnull => ""
  | v => pyStr v

/-- QUOTE_MINIMAL quoting with quotechar double-quote and delimiter comma:
quote only fields containing the delimiter, the quote, or a line break,
doubling embedded quotes. -/
def csvQuoteField (s : String) : String :=
  if s.data.any (fun c => c = ',' || c = '"' || c = '\r' || c = '\n')
  then "\"" ++ s.replace "\"" "\"\"" ++ "\""
  else s

/-- One CSV line of csv.writer: comma-joined quoted cells and CRLF. -/
def csvLine (row : List Value) : String :=
  String.intercalate "," (row.map (fun v => csvQuoteField (csvFieldStr v))) ++ "\r\n"

/-- writer.writerows: the concatenated CSV lines of all rows. -/
def csvOfRows (rows : List (List Value)) : String :=
  String.join (rows.map csvLine)

/-- Observable effect on the destination connection: one COPY ... FROM STDIN
bulk insert of a CSV payload into a table with the given column list. -/
inductive CopyAction where
  | bulkInsert (table : String) (columns : List String) (payload : String)
  deriving DecidableEq

/-- Embeds copy_to_staging: nothing for an empty row list, otherwise exactly
one COPY of all rows into staging_transactions (COPY_COLUMNS). -/
def copy_to_staging (rows : List (List Value)) : List CopyAction :=
  if rows.isEmpty then []
  else [CopyAction.bulkInsert "staging_transactions" COPY_COLUMNS (csvOfRows rows)]

/-- The two recognized source encodings of scan_input_file. -/
inductive SourceFormat where
  | parquet : SourceFormat
  | csv : SourceFormat
  deriving DecidableEq

/-- The fatal errors modelled: the unsupported-format ValueError raised by
scan_input_file before any batch is read. -/
inductive EtlError where
  | unsupportedFormat (suffix : String) : EtlError
  deriving DecidableEq

/-- The final path component, as pathlib's Path(p).name on POSIX. -/
def pathName (p : String) : String := String.mk ((p.data.splitOn '/').getLastD [])

/-- Index of the last dot in the character list, if any (str.rfind). -/
def rfindDotAux : List Char → Nat → Option Nat
  | [], _ => none
  | c :: cs, i =>
    match rfindDotAux cs (i + 1) with
    | some j => some j
    | none => if c = '.' then some i else none

/-- pathlib's Path(p).suffix: the name from its last dot on, unless that dot
is the first or last character of the name. -/
def pathSuffix (p : String) : String :=
  let name := pathName p
  match rfindDotAux name.data 0 with
  | some i => if 0 < i ∧ i + 1 < name.data.length then String.mk (name.data.drop i) else ""
  | none => ""

/-- Python str.lower on the ASCII suffixes involved. -/
def pyLower (s : String) : String := String.mk (s.data.map Char.toLower)

/-- Embeds scan_input_file: dispatch on the lowercased extension, raising the
unsupported-format error for anything but .parquet and .csv. -/
def scan_input_file (input_path : String) : Except EtlError SourceFormat :=
  let extension := pyLower (pathSuffix input_path)
  if extension = ".parquet" then .ok .parquet
  else if extension = ".csv" then .ok .csv
  else .error (.unsupportedFormat extension)

/-- Embeds the Metrics dataclass; counters are Python ints. -/
structure Metrics where
  rows_read : Int := 0
  rows_loaded : Int := 0
  rows_rejected : Int := 0
  deriving DecidableEq

/-- lazy_frame.slice(offset, count).collect(): up to count records starting
at offset.  The record list stands for the file contents the scan yields. -/
def lfSlice (src : List Record) (offset count : Nat) : List Record :=
  (src.drop offset).take count

/-- Embeds the while loop of run_etl: slice at the current offset; an empty
chunk ends the run with the accumulated metrics and progress lines;
otherwise transform, build rows, load, update the three counters, emit one
progress line (modelled as the cumulative metrics printed), advance the
offset by chunk_size, and continue. -/
def runEtlAux (process_id source_hash source_system : String) (chunk_size : Nat)
    (src : List Record) (offset : Nat) (metrics : Metrics) (log : List Metrics) :
    Metrics × List Metrics :=
  if _h : (lfSlice src offset chunk_size).length = 0 then (metrics, log)
  else
    let chunk := lfSlice src offset chunk_size
    let transformed := transform_chunk chunk
    let rows := build_copy_rows transformed process_id source_hash source_system
    let m : Metrics :=
      ⟨metrics.rows_read + (chunk.length : Int), metrics.rows_loaded + (rows.length : Int),
       metrics.rows_rejected + ((chunk.length : Int) - (rows.length : Int))⟩
    runEtlAux process_id source_hash source_system chunk_size src (offset + chunk_size) m
      (log ++ [m])
termination_by src.length - offset
decreasing_by
  simp only [lfSlice, List.length_take, List.length_drop] at _h
  omega

/-- Embeds run_etl: scan the input path (an unsupported extension fails the
run before any batch is read), then drive the batch loop from offset 0 with
zero metrics.  The result is the final metrics and the progress lines. -/
def run_etl (input_path : String) (src : List Record)
    (process_id source_hash source_system : String) (chunk_size : Nat) :
    Except EtlError (Metrics × List Metrics) :=
  match scan_input_file input_path with
  | .error e => .error e
  | .ok _ => .ok (runEtlAux process_id source_hash source_system chunk_size src 0 {} [])

/-- Progress lines printed by a run: none when it aborts at the scan. -/
def emittedProgress : Except EtlError (Metrics × List Metrics) → List Metrics
  | .error _ => []
  | .ok (_, log) => log

/-- The successive nonempty chunks the loop processes from the given
offset. -/
def sliceChunks (chunk_size : Nat) (src : List Record) (offset : Nat) : List (List Record) :=
  if _h : (lfSlice src offset chunk_size).length = 0 then []
  else lfSlice src offset chunk_size :: sliceChunks chunk_size src (offset + chunk_size)
termination_by src.length - offset
decreasing_by
  simp only [lfSlice, List.length_take, List.length_drop] at _h
  omega

/-- One batch's counter update, as performed in the loop body. -/
def addBatch (process_id source_hash source_system : String) (m : Metrics)
    (chunk : List Record) : Metrics :=
  let rows := build_copy_rows (transform_chunk chunk) process_id source_hash source_system
  ⟨m.rows_read + (chunk.length : Int), m.rows_loaded + (rows.length : Int),
   m.rows_rejected + ((chunk.length : Int) - (rows.length : Int))⟩

/-- The cumulative metrics printed after each successive batch. -/
def progressAfter (process_id source_hash source_system : String) (m : Metrics) :
    List (List Record) → List Metrics
  | [] => []
  | c :: cs =>
    let m2 := addBatch process_id source_hash source_system m c
    m2 :: progressAfter process_id source_hash source_system m2 cs

/-- Componentwise order on the three counters. -/
def metricsLE (x y : Metrics) : Prop :=
  x.rows_read ≤ y.rows_read ∧ x.rows_loaded ≤ y.rows_loaded ∧ x.rows_rejected ≤ y.rows_rejected

/-- A concrete well-formed source record used as a base point for concrete
instances. -/
def sampleRecord : Record :=
  ⟨Value.vint 1, Value.vstr "A", Value.vint 100, Value.vstr "CC", Value.vint 123,
   Value.vint 7, Value.vdec 150000, Value.vint 10, Value.vstr "2024-01-15", Value.vnull,
   Value.vint 1, Value.vint 2, Value.vnull, Value.vstr "W", Value.vint 3,
   Value.vint 3, Value.vint 3, Value.vint 0, Value.vnull, Value.vint 30,
   Value.vnull, Value.vnull⟩

/-- FIPS 180-4 test vector: the SHA-256 embedding on the one-block message
abc matches hashlib. -/
theorem sha256hex_vector_abc :
    sha256hex "abc" = "ba7816bf8f01cfea414140de5dae2223b00361a396177a9cb410ff61f20015ad" := by
  decide

/-- FIPS 180-4 test vector: the SHA-256 embedding on the empty message
matches hashlib. -/
theorem sha256hex_vector_empty :
    sha256hex "" = "e3b0c44298fc1c149afbf4c8996fb92427ae41e4649b934ca495991b7852b855" := by
  decide

/-- A null cell is exactly the vnull constructor. -/
lemma isNull_iff (v : Value) : v.isNull = true ↔ v = Value.vnull := by
  cases v <;> simp [Value.isNull]

/-- The date rewrite touches only DATE_COLUMNS, none of which is critical,
so the critical-null predicate is unchanged by it. -/
lemma hasCriticalNull_castDates (r : Record) :
    hasCriticalNull (castDates r) = hasCriticalNull r := rfl

/-- Casting cannot resurrect a null critical cell: a record with a null
critical cell still has one after the typed casts. -/
lemma hasCriticalNull_castTyped (r : Record) (h : hasCriticalNull r = true) :
    hasCriticalNull (castTyped r) = true := by
  simp only [hasCriticalNull, Bool.or_eq_true, isNull_iff] at h ⊢
  simp only [castTyped]
  rcases h with ((((((((h | h) | h) | h) | h) | h) | h) | h) | h) | h <;>
    simp [h, castInt32, castInt64, castDecimal, castIntBounded]

/-- The pre-cast drop_nulls is subsumed by the post-cast one. -/
lemma critFilterBool (r : Record) :
    (!(hasCriticalNull r) && !(hasCriticalNull (castTyped r))) =
      !(hasCriticalNull (castTyped r)) := by
  cases hcr : hasCriticalNull r with
  | false => simp
  | true => simp [hasCriticalNull_castTyped r hcr]

/-- transform_chunk is one order-preserving selection followed by one
cell-wise rewrite: keep exactly the records whose critical cells survive
the casts, then cast types and dates. -/
lemma transform_chunk_eq (df : List Record) :
    transform_chunk df =
      (df.filter (fun r => !(hasCriticalNull (castTyped r)))).map
        (fun r => castDates (castTyped r)) := by
  unfold transform_chunk
  rw [List.filter_map, List.filter_filter, List.map_map]
  congr 1
  apply List.filter_congr
  intro r _
  simpa using critFilterBool r

/-- Every record transform_chunk emits has all ten critical cells
non-null. -/
lemma transform_chunk_no_critical (df : List Record) :
    (transform_chunk df).all (fun r => !(hasCriticalNull r)) = true := by
  rw [transform_chunk_eq]
  simp only [List.all_eq_true]
  intro x hx
  rcases List.mem_map.mp hx with ⟨r, hr, rfl⟩
  have hmem := (List.mem_filter.mp hr).2
  simpa [hasCriticalNull_castDates] using hmem

/-- transform_chunk never produces more records than it received. -/
lemma transform_chunk_length_le (df : List Record) :
    (transform_chunk df).length ≤ df.length := by
  rw [transform_chunk_eq, List.length_map]
  exact List.length_filter_le _ _

/-- build_copy_rows yields one row per input record. -/
lemma build_copy_rows_length (df : List Record) (pid sh tag : String) :
    (build_copy_rows df pid sh tag).length = df.length := by
  simp [build_copy_rows]

/-- Unfolding runEtlAux at an empty slice: the loop stops and returns the
accumulated metrics and log unchanged. -/
lemma runEtlAux_empty (pid sh tag : String) (cs : Nat) (src : List Record) (offset : Nat)
    (m : Metrics) (log : List Metrics) (h : (lfSlice src offset cs).length = 0) :
    runEtlAux pid sh tag cs src offset m log = (m, log) := by
  rw [runEtlAux]
  simp [h]

/-- Unfolding sliceChunks at an empty slice. -/
lemma sliceChunks_empty (cs : Nat) (src : List Record) (offset : Nat)
    (h : (lfSlice src offset cs).length = 0) :
    sliceChunks cs src offset = [] := by
  rw [sliceChunks]
  simp [h]

/-- The loop equals a fold of per-batch updates over the chunk
decomposition, appending one progress line per processed chunk. -/
lemma runEtlAux_spec (pid sh tag : String) (cs : Nat) (src : List Record) :
    ∀ n offset m log, src.length - offset ≤ n →
      runEtlAux pid sh tag cs src offset m log =
        ((sliceChunks cs src offset).foldl (addBatch pid sh tag) m,
         log ++ progressAfter pid sh tag m (sliceChunks cs src offset)) := by
  intro n
  induction n with
  | zero =>
    intro offset m log hle
    have hempty : (lfSlice src offset cs).length = 0 := by
      simp only [lfSlice, List.length_take, List.length_drop]
      omega
    rw [runEtlAux_empty pid sh tag cs src offset m log hempty,
      sliceChunks_empty cs src offset hempty]
    simp [progressAfter]
  | succ n ih =>
    intro offset m log hle
    by_cases hempty : (lfSlice src offset cs).length = 0
    · rw [runEtlAux_empty pid sh tag cs src offset m log hempty,
        sliceChunks_empty cs src offset hempty]
      simp [progressAfter]
    · have hnext : src.length - (offset + cs) ≤ n := by
        simp only [lfSlice, List.length_take, List.length_drop] at hempty
        omega
      rw [runEtlAux, sliceChunks]
      simp only [hempty, dite_false]
      rw [ih (offset + cs) _ _ hnext]
      simp [progressAfter, addBatch, List.append_assoc]

/-- Every chunk of the decomposition is nonempty. -/
lemma sliceChunks_nonempty (cs : Nat) (src : List Record) :
    ∀ n offset, src.length - offset ≤ n →
      ∀ c ∈ sliceChunks cs src offset, c ≠ [] := by
  intro n
  induction n with
  | zero =>
    intro offset hle c hc
    have hempty : (lfSlice src offset cs).length = 0 := by
      simp only [lfSlice, List.length_take, List.length_drop]
      omega
    rw [sliceChunks_empty cs src offset hempty] at hc
    simp at hc
  | succ n ih =>
    intro offset hle c hc
    by_cases hempty : (lfSlice src offset cs).length = 0
    · rw [sliceChunks_empty cs src offset hempty] at hc
      simp at hc
    · rw [sliceChunks] at hc
      simp only [hempty, dite_false, List.mem_cons] at hc
      rcases hc with rfl | hc
      · intro hnil
        rw [hnil] at hempty
        simp at hempty
      · have hnext : src.length - (offset + cs) ≤ n := by
          simp only [lfSlice, List.length_take, List.length_drop] at hempty
          omega
        exact ih (offset + cs) hnext c hc

/-- Sum over a list distributes over pointwise addition of the mapped
functions. -/
lemma sum_map_add {α : Type} (f g : α → Int) :
    ∀ l : List α, (l.map (fun a => f a + g a)).sum = (l.map f).sum + (l.map g).sum := by
  intro l
  induction l with
  | nil => simp
  | cons a l ih => simp [ih]; ring

/-- rows_read after folding batch updates: the start value plus the chunk
sizes. -/
lemma foldl_addBatch_read (pid sh tag : String) :
    ∀ (chunks : List (List Record)) (m : Metrics),
      (chunks.foldl (addBatch pid sh tag) m).rows_read =
        m.rows_read + (chunks.map (fun c => (c.length : Int))).sum := by
  intro chunks
  induction chunks with
  | nil => intro m; simp
  | cons c cs ih =>
    intro m
    simp only [List.foldl_cons, List.map_cons, List.sum_cons, ih, addBatch]
    ring

/-- rows_loaded after folding batch updates: the start value plus the
loaded row counts. -/
lemma foldl_addBatch_loaded (pid sh tag : String) :
    ∀ (chunks : List (List Record)) (m : Metrics),
      (chunks.foldl (addBatch pid sh tag) m).rows_loaded =
        m.rows_loaded +
          (chunks.map (fun c =>
            ((build_copy_rows (transform_chunk c) pid sh tag).length : Int))).sum := by
  intro chunks
  induction chunks with
  | nil => intro m; simp
  | cons c cs ih =>
    intro m
    simp only [List.foldl_cons, List.map_cons, List.sum_cons, ih, addBatch]
    ring

/-- rows_rejected after folding batch updates: the start value plus the
per-batch differences. -/
lemma foldl_addBatch_rejected (pid sh tag : String) :
    ∀ (chunks : List (List Record)) (m : Metrics),
      (chunks.foldl (addBatch pid sh tag) m).rows_rejected =
        m.rows_rejected +
          (chunks.map (fun c =>
            (c.length : Int) -
              ((build_copy_rows (transform_chunk c) pid sh tag).length : Int))).sum := by
  intro chunks
  induction chunks with
  | nil => intro m; simp
  | cons c cs ih =>
    intro m
    simp only [List.foldl_cons, List.map_cons, List.sum_cons, ih, addBatch]
    ring

/-- A batch loads at most as many rows as it read. -/
lemma batch_loaded_le (pid sh tag : String) (c : List Record) :
    ((build_copy_rows (transform_chunk c) pid sh tag).length : Int) ≤ (c.length : Int) := by
  rw [build_copy_rows_length]
  exact_mod_cast transform_chunk_length_le c

/-- One batch update grows every counter. -/
lemma addBatch_le (pid sh tag : String) (m : Metrics) (c : List Record) :
    metricsLE m (addBatch pid sh tag m c) := by
  refine ⟨?_, ?_, ?_⟩ <;> simp only [addBatch, metricsLE]
  · have : (0 : Int) ≤ (c.length : Int) := Int.ofNat_nonneg _
    omega
  · have : (0 : Int) ≤ ((build_copy_rows (transform_chunk c) pid sh tag).length : Int) :=
      Int.ofNat_nonneg _
    omega
  · have := batch_loaded_le pid sh tag c
    omega

/-- The printed cumulative metrics grow componentwise along the run. -/
lemma chain_progressAfter (pid sh tag : String) :
    ∀ (chunks : List (List Record)) (m : Metrics),
      List.Chain' metricsLE (m :: progressAfter pid sh tag m chunks) := by
  intro chunks
  induction chunks with
  | nil => intro m; simp [progressAfter]
  | cons c cs ih =>
    intro m
    simp only [progressAfter]
    exact List.Chain'.cons (addBatch_le pid sh tag m c) (ih _)

/-- Strict growth of rows_read along the run when every chunk is
nonempty. -/
lemma chain_progressAfter_lt (pid sh tag : String) :
    ∀ (chunks : List (List Record)) (m : Metrics), (∀ c ∈ chunks, c ≠ []) →
      List.Chain' (fun x y : Metrics => x.rows_read < y.rows_read)
        (m :: progressAfter pid sh tag m chunks) := by
  intro chunks
  induction chunks with
  | nil => intro m _; simp [progressAfter]
  | cons c cs ih =>
    intro m hne
    simp only [progressAfter]
    refine List.Chain'.cons ?_ (ih _ (fun x hx => hne x (List.mem_cons_of_mem c hx)))
    have hc : c ≠ [] := hne c (List.mem_cons_self c cs)
    have hlen : 0 < c.length := List.length_pos.mpr hc
    simp only [addBatch]
    have : (0 : Int) < (c.length : Int) := by exact_mod_cast hlen
    omega

/-- Counter bounds are preserved by folding batch updates. -/
lemma foldl_addBatch_bounds (pid sh tag : String) :
    ∀ (chunks : List (List Record)) (m : Metrics),
      0 ≤ m.rows_read → 0 ≤ m.rows_loaded → 0 ≤ m.rows_rejected →
      m.rows_loaded ≤ m.rows_read →
      (0 ≤ (chunks.foldl (addBatch pid sh tag) m).rows_read ∧
       0 ≤ (chunks.foldl (addBatch pid sh tag) m).rows_loaded ∧
       0 ≤ (chunks.foldl (addBatch pid sh tag) m).rows_rejected ∧
       (chunks.foldl (addBatch pid sh tag) m).rows_loaded ≤
         (chunks.foldl (addBatch pid sh tag) m).rows_read) := by
  intro chunks
  induction chunks with
  | nil => intro m h1 h2 h3 h4; simpa using ⟨h1, h2, h3, h4⟩
  | cons c cs ih =>
    intro m h1 h2 h3 h4
    simp only [List.foldl_cons]
    have hc : (0 : Int) ≤ (c.length : Int) := Int.ofNat_nonneg _
    have hr : (0 : Int) ≤ ((build_copy_rows (transform_chunk c) pid sh tag).length : Int) :=
      Int.ofNat_nonneg _
    have hle := batch_loaded_le pid sh tag c
    exact ih (addBatch pid sh tag m c)
      (by simp only [addBatch]; omega) (by simp only [addBatch]; omega)
      (by simp only [addBatch]; omega) (by simp only [addBatch]; omega)

/-- The loop processes exactly the ceiling of remaining records over
chunk_size chunks. -/
lemma sliceChunks_length (cs : Nat) (src : List Record) (hcs : 0 < cs) :
    ∀ n offset, src.length - offset ≤ n →
      (sliceChunks cs src offset).length = (src.length - offset + cs - 1) / cs := by
  intro n
  induction n with
  | zero =>
    intro offset hle
    have h0 : src.length - offset = 0 := by omega
    have hempty : (lfSlice src offset cs).length = 0 := by
      simp only [lfSlice, List.length_take, List.length_drop]
      omega
    rw [sliceChunks_empty cs src offset hempty, h0]
    have hz0 : (cs - 1) / cs = 0 := Nat.div_eq_of_lt (by omega)
    simp [hz0]
  | succ n ih =>
    intro offset hle
    by_cases hempty : (lfSlice src offset cs).length = 0
    · have h0 : src.length - offset = 0 := by
        simp only [lfSlice, List.length_take, List.length_drop] at hempty
        omega
      rw [sliceChunks_empty cs src offset hempty, h0]
      have hz0 : (cs - 1) / cs = 0 := Nat.div_eq_of_lt (by omega)
      simp [hz0]
    · have hrem : 0 < src.length - offset := by
        simp only [lfSlice, List.length_take, List.length_drop] at hempty
        omega
      have hnext : src.length - (offset + cs) ≤ n := by omega
      rw [sliceChunks]
      simp only [hempty, dite_false, List.length_cons]
      rw [ih (offset + cs) hnext]
      have hsub : src.length - (offset + cs) = src.length - offset - cs := by omega
      rw [hsub]
      set rem := src.length - offset with hremdef
      have he1 : rem + cs - 1 = (rem - 1) + cs := by omega
      rw [he1, Nat.add_div_right _ hcs]
      by_cases hbig : cs + 1 ≤ rem
      · have he2 : rem - cs + cs - 1 = rem - 1 := by omega
        rw [he2]
      · have hz : rem - cs = 0 := by omega
        rw [hz]
        have hl : (0 + cs - 1) / cs = 0 := Nat.div_eq_of_lt (by omega)
        have hr2 : (rem - 1) / cs = 0 := Nat.div_eq_of_lt (by omega)
        rw [hl, hr2]

/-- One word renders as exactly eight hex characters. -/
lemma wordHexChars_length (x : Nat) : (wordHexChars x).length = 8 := by
  simp [wordHexChars]

/-- The characters of a rendered digest state are its eight word
renderings. -/
lemma shaStateHex_data (st : ShaState) :
    (shaStateHex st).data =
      wordHexChars st.sa ++ wordHexChars st.sb ++ wordHexChars st.sc ++ wordHexChars st.sd ++
      wordHexChars st.se ++ wordHexChars st.sf ++ wordHexChars st.sg ++ wordHexChars st.sh := rfl

/-- A rendered digest state has 64 characters. -/
lemma shaStateHex_length (st : ShaState) : (shaStateHex st).length = 64 := by
  show (shaStateHex st).data.length = 64
  rw [shaStateHex_data]
  simp [wordHexChars_length]

/-- Every nibble renders as a lowercase hex character. -/
lemma hexDigitChar_lower : ∀ d, d < 16 → isLowerHexDigit (hexDigitChar d) = true := by decide

/-- Every character of a word rendering is lowercase hex. -/
lemma wordHexChars_lower (x : Nat) : (wordHexChars x).all isLowerHexDigit = true := by
  simp only [wordHexChars, List.all_eq_true]
  intro c hc
  rcases List.mem_map.mp hc with ⟨i, _, rfl⟩
  exact hexDigitChar_lower _ (Nat.mod_lt _ (by norm_num))

/-- Every character of a rendered digest state is lowercase hex. -/
lemma shaStateHex_lower (st : ShaState) :
    (shaStateHex st).data.all isLowerHexDigit = true := by
  rw [shaStateHex_data]
  simp [List.all_append, wordHexChars_lower]

/-- C2: transform_chunk behaves as best-effort coercion of every record
followed by exclusion of exactly the records left with an absent mandatory
cell — a malformed mandatory value (nulled by its cast) drops the record,
while records whose only absent cells are non-mandatory are retained;
every emitted record has all ten mandatory cells present, the date rewrite
never changes mandatory-completeness, and casting never resurrects an
absent mandatory cell. -/
theorem transform_cast_then_drop (df : List Record) :
    transform_chunk df =
      (df.filter (fun r => !(hasCriticalNull (castTyped r)))).map
        (fun r => castDates (castTyped r)) ∧
    (transform_chunk df).all (fun r => !(hasCriticalNull r)) = true ∧
    (∀ r : Record, hasCriticalNull (castDates r) = hasCriticalNull r) ∧
    (∀ r : Record, hasCriticalNull r = true → hasCriticalNull (castTyped r) = true) :=
  ⟨transform_chunk_eq df, transform_chunk_no_critical df,
   fun r => hasCriticalNull_castDates r, fun r => hasCriticalNull_castTyped r⟩

/-- Witness for C2 at a concrete record: a record with a null holder
identifier is mandatory-incomplete, and stays so after the casts — so the
filter in the cast-then-drop form excludes it. -/
theorem transform_cast_then_drop_witness :
    hasCriticalNull ({ sampleRecord with Identificacion := Value.vnull } : Record) = true ∧
    hasCriticalNull (castTyped { sampleRecord with Identificacion := Value.vnull }) = true ∧
    transform_chunk [{ sampleRecord with Identificacion := Value.vnull }] = [] :=
  ⟨by decide, (transform_cast_then_drop []).2.2.2 _ (by decide), by decide⟩

/-- C3: sha256_from_values canonicalizes every value — absent to the empty
string, datetime to its ISO-8601 isoformat, anything else to its trimmed
str() form — joins with the fixed separator, and the digest always prints
as 64 lowercase hexadecimal characters (256 bits). -/
theorem digest_canonicalization (values : List Value) (d : PyDateTime)
    (s t : String) (n u : Int) :
    sha256_from_values values =
      sha256hex (String.intercalate "|" (values.map normalize_value)) ∧
    normalize_value Value.vnull = "" ∧
    normalize_value (Value.vdt d) = d.isoformat ∧
    normalize_value (Value.vstr s) = pyStrip s ∧
    normalize_value (Value.vint n) = pyStrip (toString n) ∧
    normalize_value (Value.vdec u) = pyStrip (decimalStr u) ∧
    (sha256hex t).length = 64 ∧
    (sha256hex t).data.all isLowerHexDigit = true :=
  ⟨rfl, rfl, rfl, rfl, rfl, rfl, shaStateHex_length _, shaStateHex_lower _⟩

/-- C4: the business-key digest is a function of exactly six inputs — fund
code, account number, holder identifier, address code, constitution date,
source-system tag: equal canonicalized inputs give an equal digest, and
two records agreeing on just those fields (same tag) digest identically
whatever their other sixteen fields hold. -/
theorem business_key_six_inputs (r1 r2 : Record) (t1 t2 : String) :
    ((normalize_value r1.CodFondo = normalize_value r2.CodFondo →
      normalize_value r1.NumeroCuentaInversion = normalize_value r2.NumeroCuentaInversion →
      normalize_value r1.Identificacion = normalize_value r2.Identificacion →
      normalize_value r1.CodDireccion = normalize_value r2.CodDireccion →
      normalize_value r1.FechaConstitucion = normalize_value r2.FechaConstitucion →
      pyStrip t1 = pyStrip t2 →
      sha256_from_values (business_key r1 t1) = sha256_from_values (business_key r2 t2))) ∧
    ((r1.CodFondo = r2.CodFondo → r1.NumeroCuentaInversion = r2.NumeroCuentaInversion →
      r1.Identificacion = r2.Identificacion → r1.CodDireccion = r2.CodDireccion →
      r1.FechaConstitucion = r2.FechaConstitucion → t1 = t2 →
      sha256_from_values (business_key r1 t1) = sha256_from_values (business_key r2 t2))) := by
  constructor
  · intro h1 h2 h3 h4 h5 h6
    have htag : normalize_value (Value.vstr t1) = normalize_value (Value.vstr t2) := by
      simpa [normalize_value, pyStr] using h6
    simp only [sha256_from_values, business_key, List.map_cons, List.map_nil]
    rw [h1, h2, h3, h4, h5, htag]
  · intro h1 h2 h3 h4 h5 h6
    simp only [business_key, h1, h2, h3, h4, h5, h6]

/-- Witness for C4: a record and a copy differing only in monetary value
and share class share a business-key digest. -/
theorem business_key_six_inputs_witness :
    sampleRecord.CodFondo =
      ({ sampleRecord with Valor := Value.vdec 999, CodClase := Value.vstr "Z" } : Record).CodFondo ∧
    sampleRecord.NumeroCuentaInversion =
      ({ sampleRecord with Valor := Value.vdec 999, CodClase := Value.vstr "Z" } : Record).NumeroCuentaInversion ∧
    sampleRecord.Identificacion =
      ({ sampleRecord with Valor := Value.vdec 999, CodClase := Value.vstr "Z" } : Record).Identificacion ∧
    sampleRecord.CodDireccion =
      ({ sampleRecord with Valor := Value.vdec 999, CodClase := Value.vstr "Z" } : Record).CodDireccion ∧
    sampleRecord.FechaConstitucion =
      ({ sampleRecord with Valor := Value.vdec 999, CodClase := Value.vstr "Z" } : Record).FechaConstitucion ∧
    sha256_from_values (business_key sampleRecord "S") =
      sha256_from_values
        (business_key { sampleRecord with Valor := Value.vdec 999, CodClase := Value.vstr "Z" } "S") :=
  ⟨rfl, rfl, rfl, rfl, rfl,
   (business_key_six_inputs sampleRecord
      { sampleRecord with Valor := Value.vdec 999, CodClase := Value.vstr "Z" } "S" "S").2
     rfl rfl rfl rfl rfl rfl⟩

/-- Counterexample to C5 as stated: two records that differ in the CodClase
source field ("X " versus "X") receive identical payload digests, because
canonicalization trims the difference away before hashing — so a
difference in one of the 23 inputs does not always change the digest. -/
theorem payload_digest_collision :
    ({ sampleRecord with CodClase := Value.vstr "X " } : Record) ≠
      { sampleRecord with CodClase := Value.vstr "X" } ∧
    sha256_from_values
        (payload_values { sampleRecord with CodClase := Value.vstr "X " } "S") =
      sha256_from_values
        (payload_values { sampleRecord with CodClase := Value.vstr "X" } "S") := by
  constructor
  · decide
  · have h : (payload_values { sampleRecord with CodClase := Value.vstr "X " } "S").map
        normalize_value =
        (payload_values { sampleRecord with CodClase := Value.vstr "X" } "S").map
          normalize_value := by decide
    unfold sha256_from_values
    rw [h]

/-- C5 (amended): the payload digest is a function of the canonicalized 22
source fields plus tag — records with equal canonicalized payload inputs
always digest identically; differing raw inputs need not differ in digest
once canonicalization erases the difference. -/
theorem payload_digest_of_canonical (r1 r2 : Record) (t1 t2 : String)
    (h : (payload_values r1 t1).map normalize_value =
      (payload_values r2 t2).map normalize_value) :
    sha256_from_values (payload_values r1 t1) =
      sha256_from_values (payload_values r2 t2) := by
  unfold sha256_from_values
  rw [h]

/-- Witness for the amended C5 at concrete records with equal canonical
payloads. -/
theorem payload_digest_of_canonical_witness :
    (payload_values sampleRecord "S").map normalize_value =
      (payload_values { sampleRecord with CanalApertura := Value.vstr "W " } "S").map
        normalize_value ∧
    sha256_from_values (payload_values sampleRecord "S") =
      sha256_from_values
        (payload_values { sampleRecord with CanalApertura := Value.vstr "W " } "S") :=
  ⟨by decide, payload_digest_of_canonical _ _ _ _ (by decide)⟩

/-- The balance rows_read = rows_loaded + rows_rejected is preserved by
folding batch updates. -/
lemma foldl_addBatch_identity (pid sh tag : String) (chunks : List (List Record)) :
    ∀ m : Metrics, m.rows_read = m.rows_loaded + m.rows_rejected →
      (chunks.foldl (addBatch pid sh tag) m).rows_read =
        (chunks.foldl (addBatch pid sh tag) m).rows_loaded +
          (chunks.foldl (addBatch pid sh tag) m).rows_rejected := by
  induction chunks with
  | nil => intro m h; simpa using h
  | cons c cs ih =>
    intro m h
    simp only [List.foldl_cons]
    exact ih _ (by simp only [addBatch]; omega)

/-- C1: per batch, rows read equal rows loaded plus rows rejected — the
loop adds chunk.height, len(rows) and their difference — and the totals
the loop returns are exactly the sums of those per-batch values over all
processed chunks, so the final counters balance. -/
theorem etl_counts_additive (pid sh tag : String) (cs : Nat) (src : List Record) :
    (∀ chunk : List Record,
        (chunk.length : Int) =
          ((build_copy_rows (transform_chunk chunk) pid sh tag).length : Int) +
            ((chunk.length : Int) -
              ((build_copy_rows (transform_chunk chunk) pid sh tag).length : Int))) ∧
    (runEtlAux pid sh tag cs src 0 {} []).1.rows_read =
      ((sliceChunks cs src 0).map (fun c => (c.length : Int))).sum ∧
    (runEtlAux pid sh tag cs src 0 {} []).1.rows_loaded =
      ((sliceChunks cs src 0).map (fun c =>
        ((build_copy_rows (transform_chunk c) pid sh tag).length : Int))).sum ∧
    (runEtlAux pid sh tag cs src 0 {} []).1.rows_rejected =
      ((sliceChunks cs src 0).map (fun c =>
        (c.length : Int) -
          ((build_copy_rows (transform_chunk c) pid sh tag).length : Int))).sum ∧
    (runEtlAux pid sh tag cs src 0 {} []).1.rows_read =
      (runEtlAux pid sh tag cs src 0 {} []).1.rows_loaded +
        (runEtlAux pid sh tag cs src 0 {} []).1.rows_rejected := by
  have hspec := runEtlAux_spec pid sh tag cs src src.length 0 {} [] (by omega)
  refine ⟨fun chunk => by ring, ?_, ?_, ?_, ?_⟩
  · rw [hspec]
    simpa using foldl_addBatch_read pid sh tag (sliceChunks cs src 0) {}
  · rw [hspec]
    simpa using foldl_addBatch_loaded pid sh tag (sliceChunks cs src 0) {}
  · rw [hspec]
    simpa using foldl_addBatch_rejected pid sh tag (sliceChunks cs src 0) {}
  · rw [hspec]
    exact foldl_addBatch_identity pid sh tag (sliceChunks cs src 0) {} (by simp)

/-- C6: a path whose lowercased extension is neither .csv nor .parquet
makes the scan fail with the unsupported-format error, so the whole run
fails with it before any batch is read and no progress line (hence no
nonzero counter) is ever produced. -/
theorem unsupported_extension_fails (path : String) (src : List Record)
    (pid sh tag : String) (cs : Nat)
    (h1 : pyLower (pathSuffix path) ≠ ".csv")
    (h2 : pyLower (pathSuffix path) ≠ ".parquet") :
    scan_input_file path = .error (.unsupportedFormat (pyLower (pathSuffix path))) ∧
    run_etl path src pid sh tag cs =
      .error (.unsupportedFormat (pyLower (pathSuffix path))) ∧
    emittedProgress (run_etl path src pid sh tag cs) = [] := by
  have hscan : scan_input_file path =
      .error (.unsupportedFormat (pyLower (pathSuffix path))) := by
    unfold scan_input_file
    simp [h1, h2]
  refine ⟨hscan, ?_, ?_⟩ <;> simp [run_etl, hscan, emittedProgress]

/-- Witness for C6: a .txt path is rejected up front with the
unsupported-format error. -/
theorem unsupported_extension_fails_witness :
    pyLower (pathSuffix "data.txt") ≠ ".csv" ∧
    pyLower (pathSuffix "data.txt") ≠ ".parquet" ∧
    run_etl "data.txt" [] "p" "h" "s" 10 = .error (.unsupportedFormat ".txt") := by
  refine ⟨by decide, by decide, ?_⟩
  have h := unsupported_extension_fails "data.txt" [] "p" "h" "s" 10 (by decide) (by decide)
  simpa [show pyLower (pathSuffix "data.txt") = ".txt" by decide] using h.2.1

/-- C7: a run starts at offset 0 with zero metrics; whenever the slice at
the current offset is empty the loop stops, returning the accumulated
metrics without emitting a line for the empty batch; and each emitted
progress line belongs to one nonempty processed chunk, so cumulative
rows_read strictly increases from 0 line over line. -/
theorem orchestrator_progress (pid sh tag : String) (cs : Nat) (src : List Record) :
    (∀ (offset : Nat) (m : Metrics) (log : List Metrics), lfSlice src offset cs = [] →
        runEtlAux pid sh tag cs src offset m log = (m, log)) ∧
    (∀ path fmt, scan_input_file path = Except.ok fmt →
        run_etl path src pid sh tag cs =
          Except.ok (runEtlAux pid sh tag cs src 0 {} [])) ∧
    (runEtlAux pid sh tag cs src 0 {} []).2 =
      progressAfter pid sh tag {} (sliceChunks cs src 0) ∧
    ((sliceChunks cs src 0).all (fun c => !(c.isEmpty)) = true) ∧
    List.Chain' (fun x y : Metrics => x.rows_read < y.rows_read)
      (({} : Metrics) :: (runEtlAux pid sh tag cs src 0 {} []).2) := by
  have hspec := runEtlAux_spec pid sh tag cs src src.length 0 {} [] (by omega)
  have hne := sliceChunks_nonempty cs src src.length 0 (by omega)
  refine ⟨?_, ?_, ?_, ?_, ?_⟩
  · intro offset m log h
    exact runEtlAux_empty pid sh tag cs src offset m log (by rw [h]; rfl)
  · intro path fmt hscan
    simp [run_etl, hscan]
  · rw [hspec]
    simp
  · simp only [List.all_eq_true]
    intro c hc
    simpa [List.isEmpty_iff] using hne c hc
  · rw [hspec]
    simpa using chain_progressAfter_lt pid sh tag (sliceChunks cs src 0) {} hne

/-- Witness for C7: on an empty source the first slice is empty, the loop
returns the zero metrics with no progress line, and a .csv path reaches
the loop. -/
theorem orchestrator_progress_witness :
    lfSlice [] 0 5 = [] ∧
    runEtlAux "p" "h" "s" 5 [] 0 {} [] = ({}, []) ∧
    scan_input_file "input.csv" = Except.ok SourceFormat.csv ∧
    run_etl "input.csv" [] "p" "h" "s" 5 =
      Except.ok (runEtlAux "p" "h" "s" 5 [] 0 {} []) := by
  refine ⟨rfl, ?_, rfl, ?_⟩
  · exact (orchestrator_progress "p" "h" "s" 5 []).1 0 {} [] rfl
  · exact (orchestrator_progress "p" "h" "s" 5 []).2.1 "input.csv" SourceFormat.csv rfl

/-- C8: copy_to_staging writes nothing for an empty row list and exactly
one bulk insert of every row for a nonempty one, each row serialized as
one CSV line in the fixed 27-column order: process id, whole-file digest,
source-system tag, business-key digest, payload digest, then the 22
transformed fields. -/
theorem bulk_load_contract (row0 : List Value) (rows : List (List Value))
    (df : List Record) (pid sh tag : String) :
    copy_to_staging [] = [] ∧
    copy_to_staging (row0 :: rows) =
      [CopyAction.bulkInsert "staging_transactions" COPY_COLUMNS (csvOfRows (row0 :: rows))] ∧
    csvOfRows (row0 :: rows) = String.join ((row0 :: rows).map csvLine) ∧
    COPY_COLUMNS.length = 27 ∧
    build_copy_rows df pid sh tag = df.map (fun record =>
      [Value.vstr pid, Value.vstr sh, Value.vstr tag,
       Value.vstr (sha256_from_values (business_key record tag)),
       Value.vstr (sha256_from_values (payload_values record tag))] ++
      record.sourceValues) ∧
    (build_copy_rows df pid sh tag).all (fun row => row.length == 27) = true := by
  refine ⟨rfl, rfl, rfl, by decide, rfl, ?_⟩
  simp only [List.all_eq_true, build_copy_rows]
  intro row hrow
  rcases List.mem_map.mp hrow with ⟨r, _, rfl⟩
  simp [Record.sourceValues]

/-- C9: with a positive batch size the loop terminates — every offset at or
past the end of the source yields an empty slice, and the run completes as
a fold over exactly the finitely many (ceiling of length over batch size)
chunks, with one progress line each. -/
theorem etl_terminates (pid sh tag : String) (cs : Nat) (src : List Record)
    (hcs : 0 < cs) :
    (∀ offset, src.length ≤ offset → lfSlice src offset cs = []) ∧
    (sliceChunks cs src 0).length = (src.length + cs - 1) / cs ∧
    runEtlAux pid sh tag cs src 0 {} [] =
      ((sliceChunks cs src 0).foldl (addBatch pid sh tag) {},
       progressAfter pid sh tag {} (sliceChunks cs src 0)) := by
  refine ⟨?_, ?_, ?_⟩
  · intro offset h
    simp [lfSlice, List.drop_eq_nil_of_le h]
  · have h := sliceChunks_length cs src hcs src.length 0 (by omega)
    simpa using h
  · have hspec := runEtlAux_spec pid sh tag cs src src.length 0 {} [] (by omega)
    simpa using hspec

/-- Witness for C9: three records in batches of two make exactly two
batches. -/
theorem etl_terminates_witness :
    0 < 2 ∧
    (sliceChunks 2 [sampleRecord, sampleRecord, sampleRecord] 0).length = (3 + 2 - 1) / 2 := by
  refine ⟨by decide, ?_⟩
  have h := etl_terminates "p" "h" "s" 2 [sampleRecord, sampleRecord, sampleRecord] (by decide)
  simpa using h.2.1

/-- C10: transform_chunk only filters records in order and rewrites their
cells, so a batch never loads more rows than it read and the rejected
increment is non-negative; consequently all three counters stay
non-negative with rows_loaded at most rows_read, and the printed
cumulative metrics grow componentwise batch over batch. -/
theorem counters_monotone (pid sh tag : String) (cs : Nat) (src df : List Record) :
    (transform_chunk df).length ≤ df.length ∧
    transform_chunk df =
      (df.filter (fun r => !(hasCriticalNull (castTyped r)))).map
        (fun r => castDates (castTyped r)) ∧
    (df.filter (fun r => !(hasCriticalNull (castTyped r)))).Sublist df ∧
    (∀ chunk : List Record,
        0 ≤ (chunk.length : Int) -
          ((build_copy_rows (transform_chunk chunk) pid sh tag).length : Int)) ∧
    0 ≤ (runEtlAux pid sh tag cs src 0 {} []).1.rows_read ∧
    0 ≤ (runEtlAux pid sh tag cs src 0 {} []).1.rows_loaded ∧
    0 ≤ (runEtlAux pid sh tag cs src 0 {} []).1.rows_rejected ∧
    (runEtlAux pid sh tag cs src 0 {} []).1.rows_loaded ≤
      (runEtlAux pid sh tag cs src 0 {} []).1.rows_read ∧
    List.Chain' metricsLE (({} : Metrics) :: (runEtlAux pid sh tag cs src 0 {} []).2) := by
  have hspec := runEtlAux_spec pid sh tag cs src src.length 0 {} [] (by omega)
  have hbounds := foldl_addBatch_bounds pid sh tag (sliceChunks cs src 0) {}
    (by simp) (by simp) (by simp) (by simp)
  refine ⟨transform_chunk_length_le df, transform_chunk_eq df, List.filter_sublist df,
    ?_, ?_, ?_, ?_, ?_, ?_⟩
  · intro chunk
    have h := batch_loaded_le pid sh tag chunk
    omega
  · rw [hspec]
    simpa using hbounds.1
  · rw [hspec]
    simpa using hbounds.2.1
  · rw [hspec]
    simpa using hbounds.2.2.1
  · rw [hspec]
    simpa using hbounds.2.2.2
  · rw [hspec]
    simpa using chain_progressAfter pid sh tag (sliceChunks cs src 0) {}
